import Mathlib

/-!
Verification of the bibit portfolio-notification script (src/bibit.py).

Shallow embedding conventions:
* JSON numbers (`invested`, `marketvalue`) are modelled as rationals (ℚ),
  the exact idealization of the script's numeric arithmetic.
* Python `int(x)` (truncation toward zero) is `pyInt`.
* Python `round(x)` (round half to even) is `pyRound`.
* The HTTP transport is an oracle: a queue of pending `Response`s consumed
  one per `_request` call.  Exceptions (`raise_for_status`,
  `ZeroDivisionError`, missing body fields) are modelled with
  `Except` / `Option`.
* File storage is modelled by its content: a missing backing file is
  `Option.none`.
-/

set_option maxRecDepth 2000

/-- Floor of a rational as an integer (`q.num / q.den` with Euclidean
division, which agrees with `Int.floor` on ℚ but reduces in the kernel). -/
def ratFloor (q : ℚ) : ℤ := q.num / q.den

/-- Python `int()` on a (rational) number: truncation toward zero. -/
def pyInt (q : ℚ) : ℤ :=
  if 0 ≤ q then ratFloor q else -ratFloor (-q)

/-- Python `round()` on a (rational) number: round half to even (banker's
rounding), the semantics of Python 3's built-in `round`. -/
def pyRound (q : ℚ) : ℤ :=
  let f := ratFloor q
  let r := q - (f : ℚ)
  if r < 1/2 then f
  else if 1/2 < r then f + 1
  else if f % 2 = 0 then f else f + 1

/-- Insert a `,` after every group of three characters, the input being the
reversed digit string.  Helper for Python's `f"{n:,}"` thousands grouping. -/
def commasRev : List Char → List Char
  | a :: b :: c :: d :: rest => a :: b :: c :: ',' :: commasRev (d :: rest)
  | l => l

/-- `BibitNotifyJob._format_currency`: `round(num)` followed by Python's
`f"{rounded:,}"` thousands-grouped rendering (the rounding itself is applied
by the caller in this embedding, see `formatMessage`). -/
def formatCurrency (n : ℤ) : String :=
  (if n < 0 then "-" else "") ++
    String.mk ((commasRev (toString n.natAbs).toList.reverse).reverse)

/-- Python `f"{q:.1f}"` on a number: fixed-point rendering with one decimal
digit, rounding half to even. -/
def formatFixed1 (q : ℚ) : String :=
  let s := pyRound (q * 10)
  let n := s.natAbs
  (if s < 0 then "-" else "") ++ toString (n / 10) ++ "." ++ toString (n % 10)

/-- One cleaned portfolio item (`BibitNotifyJob._clean_porto_item` keeps
exactly the fields `id`, `invested`, `marketvalue`, `name`). -/
structure Asset where
  id : Nat
  name : String
  invested : ℚ
  marketvalue : ℚ
deriving DecidableEq, Repr

/-- A snapshot is the cleaned list of portfolio items. -/
abbrev Snapshot := List Asset

/-- One history entry: `{"timestamp": int(time.time()), "portofolios": snapshot}`. -/
structure Entry where
  timestamp : Nat
  portofolios : Snapshot
deriving DecidableEq, Repr

/-- `StoreNotInitializedError`, raised by `JSONFileStorage.load` when the
backing file does not exist. -/
inductive StorageErr where
  | storeNotInitialized
deriving DecidableEq, Repr

/-- `JSONFileStorage.load`: the backing file's content is `some h` when the
file exists and parses to `h`, `none` when the file does not exist
(`FileNotFoundError`), in which case the error is re-raised as
`StoreNotInitializedError`. -/
def jsonLoad (file : Option (List Entry)) : Except StorageErr (List Entry) :=
  match file with
  | none => .error .storeNotInitialized
  | some h => .ok h

/-- `PortofolioHistoryStore.init`: load the backing file; on
`StoreNotInitializedError` fall back to the empty history. -/
def storeInit (file : Option (List Entry)) : List Entry :=
  match jsonLoad file with
  | .error .storeNotInitialized => []
  | .ok h => h

/-- `PortofolioHistoryStore.add`: append `{"timestamp": ts, "portofolios": snapshot}`
(then persist the whole history; persistence is content-identity here). -/
def storeAdd (history : List Entry) (ts : Nat) (snap : Snapshot) : List Entry :=
  history ++ [⟨ts, snap⟩]

/-- `PortofolioHistoryStore.get_last`: `history[-1]['portofolios']`, with
`IndexError` on an empty history caught and turned into `[]`. -/
def storeGetLast (history : List Entry) : Snapshot :=
  match history.getLast? with
  | some e => e.portofolios
  | none => []

/-- `RollingPortofolioHistoryStore.max_portofolio`. -/
def maxPortofolio : Nat := 100

/-- The observable state of a `RollingPortofolioHistoryStore`: the contents of
the already rolled-over backing files (oldest first) and the history of the
currently active `PortofolioHistoryStore`. -/
structure RollingState where
  archived : List (List Entry)
  current : List Entry
deriving DecidableEq, Repr

/-- `RollingPortofolioHistoryStore.add`: if the active store's history length
exceeds `max_portofolio`, allocate a new file and load a fresh (empty) store
against it (a newly allocated filename has no existing file, so `init` yields
`[]`); then append to the (possibly just-replaced) active store. -/
def rollingAdd (st : RollingState) (ts : Nat) (snap : Snapshot) : RollingState :=
  if st.current.length > maxPortofolio then
    { archived := st.archived ++ [st.current], current := storeAdd (storeInit none) ts snap }
  else
    { st with current := storeAdd st.current ts snap }

/-- `RollingPortofolioHistoryStore.get_last` delegates to the active store. -/
def rollingGetLast (st : RollingState) : Snapshot :=
  storeGetLast st.current

/-- A fresh rolling store: first run against an empty history directory
(`get_latest_filename` points at index 1, whose file does not exist, so the
active store initializes empty). -/
def freshRolling : RollingState :=
  { archived := [], current := storeInit none }

/-- N successive `add` calls starting from a fresh rolling store; the `k`-th
call (0-based) appends snapshot `snaps k` at wall-clock time `ts k`. -/
def runAdds (ts : Nat → Nat) (snaps : Nat → Snapshot) : Nat → RollingState
  | 0 => freshRolling
  | n + 1 => rollingAdd (runAdds ts snaps n) (ts n) (snaps n)

/-- Number of distinct backing files created so far (each rolled-over file
plus the currently active one). -/
def filesCreated (st : RollingState) : Nat :=
  st.archived.length + 1

/-- All entries across all backing files, archive order then active store. -/
def allEntries (st : RollingState) : List Entry :=
  st.archived.flatten ++ st.current

/-- One HTTP response from the transport: its status code and, when the body
parses as `{data: {token: {access_token, refresh_token}}}`, those two token
values.  `tokens = none` models a body without that shape. -/
structure Response where
  status : Nat
  tokens : Option (String × String)
deriving DecidableEq, Repr

/-- The observable state of a `BibitAPI` together with its `SecretStore` and
HTTP transport: the stored tokens, the log of records persisted by
`SecretStore.save` (each save writes the current access/refresh pair), and the
queue of responses the transport will produce, one per issued request. -/
structure ClientState where
  access : Option String
  refresh : String
  savedRecords : List (Option String × String)
  pending : List Response
deriving DecidableEq, Repr

/-- Exceptions escaping `BibitAPI`. -/
inductive ApiErr where
  /-- `requests.HTTPError` from `res.raise_for_status()`. -/
  | httpError (status : Nat)
  /-- transport produced no response (network failure). -/
  | noResponse
  /-- response body lacks `data.token` (`KeyError` in `_refresh_token`). -/
  | badBody
deriving DecidableEq, Repr

/-- `requests` `raise_for_status` raises exactly for 4xx and 5xx statuses. -/
def isHttpFailure (status : Nat) : Bool :=
  400 ≤ status && status < 600

/-- `BibitAPI._request`: issue one transport call (consuming the next pending
response); when `allowFail` is false, `raise_for_status` the response. -/
def apiRawRequest (s : ClientState) (allowFail : Bool) :
    Except ApiErr (Response × ClientState) :=
  match s.pending with
  | [] => .error .noResponse
  | r :: rest =>
    if !allowFail && isHttpFailure r.status then .error (.httpError r.status)
    else .ok (r, { s with pending := rest })

/-- `BibitAPI._refresh_token`: clear the access token, POST the refresh call
with `allow_fail=False`, extract the new token pair from
`res.json()['data']['token']`, store it and persist via `SecretStore.save`. -/
def apiRefreshToken (s : ClientState) : Except ApiErr ClientState :=
  match apiRawRequest { s with access := none } false with
  | .error e => .error e
  | .ok (r, s1) =>
    match r.tokens with
    | none => .error .badBody
    | some (a, rt) =>
      .ok { s1 with
              access := some a
              refresh := rt
              savedRecords := s1.savedRecords ++ [(some a, rt)] }

/-- `BibitAPI.request`: issue the request; on 200 return the response; on 401
run `_refresh_token` and return the result of re-issuing the request (with
`allow_fail` defaulting to `True`); on any other status `raise_for_status`
and fall off the end of the function (returning Python `None`, modelled as
`Option.none` in the first component). -/
def apiRequest (s : ClientState) :
    Except ApiErr (Option Response × ClientState) :=
  match apiRawRequest s true with
  | .error e => .error e
  | .ok (r, s1) =>
    if r.status = 200 then .ok (some r, s1)
    else if r.status = 401 then
      match apiRefreshToken s1 with
      | .error e => .error e
      | .ok s2 =>
        match apiRawRequest s2 true with
        | .error e => .error e
        | .ok (r2, s3) => .ok (some r2, s3)
    else if isHttpFailure r.status then .error (.httpError r.status)
    else .ok (none, s1)

/-- `'\U0001F4C8'`, chart-increasing. -/
def emojiUp : String := "📈"

/-- `'\U0001F4C9'`, chart-decreasing. -/
def emojiDown : String := "📉"

/-- `'⬜'`, white large square. -/
def emojiFlat : String := "⬜"

/-- The `1e-9` deadband used by `_format_message`. -/
def deadband : ℚ := 1 / 1000000000

/-- `BibitNotifyJob._format_message`: pick the directional glyph from the sign
of `change_percentage` with the `1e-9` deadband, then render
`f"{emoji} {abs(cp*100):.1f} | *{name}*\n{total:,} [{profit:,}]\n"` (the
two currency fields going through `_format_currency`, i.e. `round` then
thousands grouping). -/
def formatMessage (name : String) (changePercentage total profitQ : ℚ) : String :=
  let emoji :=
    if changePercentage > deadband then emojiUp
    else if changePercentage < -deadband then emojiDown
    else emojiFlat
  emoji ++ " " ++ formatFixed1 (|changePercentage * 100|) ++ " | *" ++ name ++ "*\n"
    ++ formatCurrency (pyRound total) ++ " [" ++ formatCurrency (pyRound profitQ) ++ "]\n"

/-- `BibitNotifyJob._build_porto_map` as a lookup: the Python dict
comprehension `{item['id']: item for item in porto}` maps an id to the LAST
item in `porto` carrying that id (later insertions overwrite earlier ones). -/
def portoMapGet (porto : List Asset) (i : Nat) : Option Asset :=
  (porto.filter (fun a => a.id = i)).getLast?

/-- The keys of the current-portfolio dict in ascending order:
`sorted(porto_map.keys())`. -/
def messageIds (porto : List Asset) : List Nat :=
  List.insertionSort (· ≤ ·) ((porto.map Asset.id).dedup)

/-- `change_percentage = 1.0 * (current_profit - last_profit) / current_invested`
for one asset, `lastItem` being `last_porto_map.get(porto_id, {})` (so a
missing id contributes `marketvalue` 0 and `invested` 0).  Only evaluated by
the job when `item.invested ≠ 0` (otherwise Python raises
`ZeroDivisionError` first, see `assetStep`). -/
def changeRatioQ (lastItem : Option Asset) (item : Asset) : ℚ :=
  let lastValue := (lastItem.map Asset.marketvalue).getD 0
  let lastProfit := lastValue - (lastItem.map Asset.invested).getD 0
  ((item.marketvalue - item.invested) - lastProfit) / item.invested

/-- One iteration of the `for porto_id in sorted(porto_map.keys())` loop in
`BibitNotifyJob._construct_message`, threading `(should_send, message_parts)`;
`none` models an exception (`ZeroDivisionError` on a zero `invested`) having
escaped an earlier iteration or this one. -/
def assetStep (porto last : List Asset) (acc : Option (Bool × List String))
    (i : Nat) : Option (Bool × List String) :=
  match acc with
  | none => none
  | some (shouldSend, parts) =>
    match portoMapGet porto i with
    | none => none
    | some item =>
      let lastItem := portoMapGet last i
      let lastValue := (lastItem.map Asset.marketvalue).getD 0
      if item.invested = 0 then none
      else
        some (shouldSend || (pyInt item.marketvalue != pyInt lastValue),
          parts ++ [formatMessage item.name (changeRatioQ lastItem item)
            item.marketvalue (item.marketvalue - item.invested)])

/-- `BibitNotifyJob._construct_message`: returns `(should_send, message)` with
the parts joined by `'\n'`, or `none` when the loop raises. -/
def constructMessage (porto last : List Asset) : Option (Bool × String) :=
  ((messageIds porto).foldl (assetStep porto last) (some (false, []))).map
    (fun p => (p.1, String.intercalate "\n" p.2))

/-- `BibitNotifyJob.run` given the already-fetched-and-cleaned current
portfolio: construct the message against the rolling store's last snapshot;
if `should_send`, deliver the message and append the current snapshot.
The result is `(messages sent, rolling store afterwards)`; `none` models an
exception aborting the run before any send or append. -/
def runJob (st : RollingState) (porto : List Asset) (ts : Nat) :
    Option (List String × RollingState) :=
  match constructMessage porto (rollingGetLast st) with
  | none => none
  | some (shouldSend, msg) =>
    if shouldSend then some ([msg], rollingAdd st ts porto)
    else some ([], st)

/-! ## Helper lemmas: rolling store shape -/

/-- After `n ≥ 1` adds from a fresh rolling store, the archive holds
`(n-1)/101` rolled-over files and the active store `(n-1) % 101 + 1` entries:
a file fills up to `maxPortofolio + 1 = 101` entries before rollover. -/
theorem runAdds_shape (ts : Nat → Nat) (snaps : Nat → Snapshot) :
    ∀ n : Nat, 1 ≤ n →
      (runAdds ts snaps n).archived.length = (n - 1) / 101 ∧
      (runAdds ts snaps n).current.length = (n - 1) % 101 + 1 := by
  intro n
  induction n with
  | zero => intro h; omega
  | succ m ih =>
    intro _
    rcases Nat.eq_zero_or_pos m with hm | hm
    · subst hm
      simp [runAdds, rollingAdd, freshRolling, storeInit, jsonLoad, storeAdd, maxPortofolio]
    · obtain ⟨ha, hc⟩ := ih hm
      have hstep : runAdds ts snaps (m + 1) =
          rollingAdd (runAdds ts snaps m) (ts m) (snaps m) := rfl
      rw [hstep]
      unfold rollingAdd
      by_cases hroll : (runAdds ts snaps m).current.length > maxPortofolio
      · rw [if_pos hroll]
        simp only [maxPortofolio] at hroll
        simp only [storeAdd, storeInit, jsonLoad, List.length_append,
          List.length_cons, List.length_nil, List.nil_append]
        exact ⟨by omega, by omega⟩
      · rw [if_neg hroll]
        simp only [maxPortofolio] at hroll
        simp only [storeAdd, List.length_append, List.length_cons, List.length_nil]
        exact ⟨by omega, by omega⟩

/-- A single `add` appends exactly one entry to the multiset of all stored
entries, rollover or not. -/
theorem rollingAdd_allEntries (st : RollingState) (t : Nat) (snap : Snapshot) :
    allEntries (rollingAdd st t snap) = allEntries st ++ [⟨t, snap⟩] := by
  unfold rollingAdd allEntries
  by_cases h : st.current.length > maxPortofolio
  · rw [if_pos h]
    simp [storeAdd, storeInit, jsonLoad, List.append_assoc]
  · rw [if_neg h]
    simp [storeAdd, List.append_assoc]

/-- The concatenation of all backing files after `n` adds is exactly the
sequence of appended entries, in order. -/
theorem runAdds_allEntries (ts : Nat → Nat) (snaps : Nat → Snapshot) :
    ∀ n : Nat, allEntries (runAdds ts snaps n) =
      (List.range n).map (fun k => Entry.mk (ts k) (snaps k)) := by
  intro n
  induction n with
  | zero => simp [runAdds, freshRolling, allEntries, storeInit, jsonLoad]
  | succ m ih =>
    have hstep : runAdds ts snaps (m + 1) =
        rollingAdd (runAdds ts snaps m) (ts m) (snaps m) := rfl
    rw [hstep, rollingAdd_allEntries, ih, List.range_succ, List.map_append]
    rfl

/-- Closed form for the number of backing files after `n ≥ 1` adds:
`ceil(n / 101)`, each file being filled to 101 entries before rollover. -/
theorem runAdds_filesCreated (ts : Nat → Nat) (snaps : Nat → Snapshot)
    (n : Nat) (h : 1 ≤ n) :
    filesCreated (runAdds ts snaps n) = (n + 100) / 101 := by
  have := (runAdds_shape ts snaps n h).1
  unfold filesCreated
  omega

/-! ## Claim theorems: authenticated client (C1, C4, C10) -/

/-- C1, counterexample: the claim says that when the retried request (after a
401 and a successful refresh) again yields a 401, `request` raises.  In fact
the retry is issued with `allow_fail` defaulting to `True` and its response is
returned as-is: on the trace 401 / refresh-200 / 401, `apiRequest` returns
`ok` carrying the second 401 response instead of raising. -/
theorem apiRequest_second_401_returned :
    apiRequest ⟨none, "r0", [], [⟨401, none⟩, ⟨200, some ("a1", "r1")⟩, ⟨401, none⟩]⟩
      = .ok (some ⟨401, none⟩, ⟨some "a1", "r1", [(some "a1", "r1")], []⟩) := by
  with_unfolding_all rfl

/-- C1, amended: if the first response is a 401 and the refresh call succeeds
(non-4xx/5xx status, body carrying a token pair), the original request is
retried exactly once — exactly three responses are consumed — and the retried
request's response is returned to the caller whatever its status (a second
401 included), with no further refresh or retry and no exception. -/
theorem apiRequest_retry_exactly_once
    (acc : Option String) (rt : String) (saved : List (Option String × String))
    (r1 r2 r3 : Response) (rest : List Response) (a b : String)
    (h1 : r1.status = 401)
    (h2 : isHttpFailure r2.status = false)
    (h3 : r2.tokens = some (a, b)) :
    apiRequest ⟨acc, rt, saved, r1 :: r2 :: r3 :: rest⟩ =
      .ok (some r3, ⟨some a, b, saved ++ [(some a, b)], rest⟩) := by
  simp [apiRequest, apiRawRequest, apiRefreshToken, h1, h2, h3]

/-- Witness for `apiRequest_retry_exactly_once` at a concrete trace whose
retry yields a 500. -/
theorem apiRequest_retry_exactly_once_witness :
    (⟨401, none⟩ : Response).status = 401
    ∧ isHttpFailure (⟨200, some ("a", "b")⟩ : Response).status = false
    ∧ (⟨200, some ("a", "b")⟩ : Response).tokens = some ("a", "b")
    ∧ apiRequest ⟨none, "r", [], [⟨401, none⟩, ⟨200, some ("a", "b")⟩, ⟨500, none⟩]⟩ =
        .ok (some ⟨500, none⟩, ⟨some "a", "b", [(some "a", "b")], []⟩) :=
  ⟨rfl, by decide, rfl,
    apiRequest_retry_exactly_once none "r" [] _ _ _ [] "a" "b" rfl (by decide) rfl⟩

/-- C4: after a 401, a successful refresh stores exactly the token pair from
the refresh response body and persists it through the secret store while the
retry is still pending (the saved record appears with the retry response
unconsumed), and the retried request's result is what `request` returns; a
refresh response with a 4xx/5xx status raises immediately (`allow_fail=False`),
consuming no further response — no nested refresh. -/
theorem refresh_success_tokens_persisted
    (acc : Option String) (rt : String) (saved : List (Option String × String))
    (r1 r2 r3 : Response) (rest : List Response) (a b : String)
    (h1 : r1.status = 401) :
    (isHttpFailure r2.status = false → r2.tokens = some (a, b) →
      apiRefreshToken ⟨acc, rt, saved, r2 :: r3 :: rest⟩ =
        .ok ⟨some a, b, saved ++ [(some a, b)], r3 :: rest⟩
      ∧ apiRequest ⟨acc, rt, saved, r1 :: r2 :: r3 :: rest⟩ =
          .ok (some r3, ⟨some a, b, saved ++ [(some a, b)], rest⟩))
    ∧ (isHttpFailure r2.status = true →
        apiRequest ⟨acc, rt, saved, r1 :: r2 :: r3 :: rest⟩ =
          .error (.httpError r2.status)) := by
  constructor
  · intro h2 h3
    refine ⟨?_, ?_⟩
    · simp [apiRefreshToken, apiRawRequest, h2, h3]
    · simp [apiRequest, apiRawRequest, apiRefreshToken, h1, h2, h3]
  · intro h2
    simp [apiRequest, apiRawRequest, apiRefreshToken, h1, h2]

/-- Witness for `refresh_success_tokens_persisted` on a concrete trace. -/
theorem refresh_success_tokens_persisted_witness :
    apiRefreshToken ⟨none, "r", [], [⟨200, some ("a", "b")⟩, ⟨500, none⟩]⟩ =
        .ok ⟨some "a", "b", [(some "a", "b")], [⟨500, none⟩]⟩
    ∧ apiRequest ⟨none, "r", [], [⟨401, none⟩, ⟨200, some ("a", "b")⟩, ⟨500, none⟩]⟩ =
        .ok (some ⟨500, none⟩, ⟨some "a", "b", [(some "a", "b")], []⟩) :=
  (refresh_success_tokens_persisted none "r" [] ⟨401, none⟩ ⟨200, some ("a", "b")⟩
    ⟨500, none⟩ [] "a" "b" rfl).1 (by decide) rfl

/-- C10: a response whose status is below 400 but neither 200 nor 401 falls
through `raise_for_status` (which raises only for 4xx/5xx) and off the end of
`request`: the call neither raises nor returns the response object — it
returns Python `None`. -/
theorem apiRequest_other_success_returns_none
    (acc : Option String) (rt : String) (saved : List (Option String × String))
    (r : Response) (rest : List Response)
    (h200 : r.status ≠ 200) (h401 : r.status ≠ 401) (hsucc : r.status < 400) :
    apiRequest ⟨acc, rt, saved, r :: rest⟩ = .ok (none, ⟨acc, rt, saved, rest⟩) := by
  have hfail : isHttpFailure r.status = false := by
    simp only [isHttpFailure, Bool.and_eq_false_imp, decide_eq_true_eq, decide_eq_false_iff_not]
    omega
  simp [apiRequest, apiRawRequest, h200, h401, hfail]

/-- Witness for `apiRequest_other_success_returns_none` at a 204 response. -/
theorem apiRequest_other_success_returns_none_witness :
    (204 : Nat) ≠ 200 ∧ (204 : Nat) ≠ 401 ∧ (204 : Nat) < 400
    ∧ apiRequest ⟨none, "r", [], [⟨204, none⟩]⟩ = .ok (none, ⟨none, "r", [], []⟩) :=
  ⟨by decide, by decide, by decide,
    apiRequest_other_success_returns_none none "r" [] ⟨204, none⟩ []
      (by decide) (by decide) (by decide)⟩

/-! ## Claim theorems: history stores (C2, C7) -/

/-- C2, counterexample: the claim bounds the number of created backing files
by `ceil(N / maxEntriesPerFile) = ceil(N / 100)` within one.  Since a file
only rolls over once it already EXCEEDS 100 entries, every file absorbs 101
entries, and after 20400 adds only 202 files exist while `ceil(20400/100) =
204` — off by two. -/
theorem rollingStore_filecount_ceil_counterexample :
    filesCreated (runAdds (fun _ => 0) (fun _ => []) 20400) + 1 < (20400 + 99) / 100 := by
  have h := runAdds_filesCreated (fun _ => 0) (fun _ => []) 20400 (by omega)
  rw [h]
  decide

/-- C2, amended: starting from a fresh rolling store, a rollover happens on an
`add` exactly when the active store already holds more than
`maxPortofolio = 100` entries (so a file holds up to 101 entries); after `N ≥ 1`
adds the number of distinct backing files equals `ceil(N / 101)` (not within
one of `ceil(N / 100)` for large `N`); and the concatenation of the backing
files' contents is exactly the sequence of appended entries, so every entry
resides in exactly one backing file. -/
theorem rollingStore_rollover_partition (ts : Nat → Nat) (snaps : Nat → Snapshot)
    (N : Nat) (h : 1 ≤ N) :
    filesCreated (runAdds ts snaps N) = (N + 100) / 101
    ∧ allEntries (runAdds ts snaps N) = (List.range N).map (fun k => Entry.mk (ts k) (snaps k))
    ∧ ∀ st : RollingState, ∀ t : Nat, ∀ s : Snapshot,
        ((rollingAdd st t s).archived = st.archived ++ [st.current] ↔
          maxPortofolio < st.current.length) := by
  refine ⟨runAdds_filesCreated ts snaps N h, runAdds_allEntries ts snaps N, ?_⟩
  intro st t s
  unfold rollingAdd
  by_cases hroll : st.current.length > maxPortofolio
  · rw [if_pos hroll]
    simpa using hroll
  · rw [if_neg hroll]
    constructor
    · intro heq
      exfalso
      have hlen := congrArg List.length heq
      rw [List.length_append] at hlen
      simp at hlen
    · intro hlt
      exact absurd hlt hroll

/-- Witness for `rollingStore_rollover_partition` at `N = 1`. -/
theorem rollingStore_rollover_partition_witness :
    1 ≤ 1
    ∧ (filesCreated (runAdds (fun _ => 0) (fun _ => []) 1) = (1 + 100) / 101
      ∧ allEntries (runAdds (fun _ => 0) (fun _ => []) 1) =
          (List.range 1).map (fun _ => Entry.mk 0 [])
      ∧ ∀ st : RollingState, ∀ t : Nat, ∀ s : Snapshot,
          ((rollingAdd st t s).archived = st.archived ++ [st.current] ↔
            maxPortofolio < st.current.length)) :=
  ⟨le_refl 1, rollingStore_rollover_partition (fun _ => 0) (fun _ => []) 1 (le_refl 1)⟩

/-! ## Helper lemmas: the construct-message fold -/

/-- An exception propagates through the rest of the loop. -/
theorem assetStep_none (porto last : List Asset) (i : Nat) :
    assetStep porto last none i = none := rfl

/-- An exception propagates through the rest of the loop (fold form). -/
theorem foldl_assetStep_none (porto last : List Asset) (l : List Nat) :
    l.foldl (assetStep porto last) none = none := by
  induction l with
  | nil => rfl
  | cons i t ih => rw [List.foldl_cons, assetStep_none, ih]

/-- A successful dict lookup returns an element of the list with the looked-up
id. -/
theorem portoMapGet_mem {porto : List Asset} {i : Nat} {a : Asset}
    (h : portoMapGet porto i = some a) : a ∈ porto ∧ a.id = i := by
  unfold portoMapGet at h
  have hmem := List.mem_of_getLast?_eq_some h
  rw [List.mem_filter] at hmem
  exact ⟨hmem.1, by simpa using hmem.2⟩

/-- With unique ids the dict lookup of a member's id returns exactly that
member. -/
theorem portoMapGet_of_nodup {porto : List Asset}
    (hn : (porto.map Asset.id).Nodup) {a : Asset} (ha : a ∈ porto) :
    portoMapGet porto a.id = some a := by
  induction porto with
  | nil => cases ha
  | cons b t ih =>
    rw [List.map_cons, List.nodup_cons] at hn
    unfold portoMapGet
    rcases List.mem_cons.mp ha with hab | hat
    · subst hab
      have hfilter : t.filter (fun x => x.id = a.id) = [] := by
        rw [List.filter_eq_nil_iff]
        intro x hx hxa
        exact hn.1 (List.mem_map.mpr ⟨x, hx, of_decide_eq_true hxa⟩)
      simp [hfilter]
    · have hne : ¬ (b.id = a.id) := by
        intro hba
        exact hn.1 (hba ▸ List.mem_map.mpr ⟨a, hat, rfl⟩)
      have := ih hn.2 hat
      unfold portoMapGet at this
      simpa [List.filter_cons, hne] using this

/-- Dict lookups are invariant under permutation of the input list when ids
are unique. -/
theorem portoMapGet_perm {porto porto' : List Asset}
    (hp : List.Perm porto porto') (hn : (porto.map Asset.id).Nodup) (i : Nat) :
    portoMapGet porto i = portoMapGet porto' i := by
  cases hg : portoMapGet porto i with
  | some a =>
    obtain ⟨hmem, hid⟩ := portoMapGet_mem hg
    have hn' : (porto'.map Asset.id).Nodup := (hp.map Asset.id).nodup hn
    have := portoMapGet_of_nodup hn' (hp.mem_iff.mp hmem)
    rw [hid] at this
    rw [this]
  | none =>
    unfold portoMapGet at hg ⊢
    have hnil : porto.filter (fun a => a.id = i) = [] := by
      cases hf : porto.filter (fun a => a.id = i) with
      | nil => rfl
      | cons x xs => rw [hf] at hg; simp [List.getLast?] at hg
    have : porto'.filter (fun a => a.id = i) = [] :=
      List.Perm.eq_nil ((hp.filter _).symm.trans (hnil ▸ List.Perm.refl _))
    rw [this]
    rfl

/-- The emission order is invariant under permutation of the current snapshot
when ids are unique. -/
theorem messageIds_perm {porto porto' : List Asset}
    (hp : List.Perm porto porto') (hn : (porto.map Asset.id).Nodup) :
    messageIds porto = messageIds porto' := by
  have hn' : (porto'.map Asset.id).Nodup := (hp.map Asset.id).nodup hn
  unfold messageIds
  rw [List.dedup_eq_self.mpr hn, List.dedup_eq_self.mpr hn']
  exact List.eq_of_perm_of_sorted
    ((List.perm_insertionSort _ _).trans ((hp.map _).trans (List.perm_insertionSort _ _).symm))
    (List.sorted_insertionSort _ _) (List.sorted_insertionSort _ _)

/-- Folds of pointwise-equal step functions agree. -/
theorem foldl_congr_mem {α β : Type} {f g : β → α → β} :
    ∀ (l : List α) (b : β), (∀ x ∈ l, ∀ acc, f acc x = g acc x) →
      l.foldl f b = l.foldl g b := by
  intro l
  induction l with
  | nil => intro b _; rfl
  | cons x t ih =>
    intro b h
    rw [List.foldl_cons, List.foldl_cons, h x (List.mem_cons_self x t) b]
    exact ih _ (fun y hy => h y (List.mem_cons_of_mem x hy))

/-- If every current asset's integer-truncated market value equals the
integer-truncated last value for its id, the loop never sets `should_send`. -/
theorem foldl_assetStep_send_stays_false (porto last : List Asset)
    (h : ∀ i a, portoMapGet porto i = some a →
      pyInt a.marketvalue = pyInt (((portoMapGet last i).map Asset.marketvalue).getD 0)) :
    ∀ (l : List Nat) (parts : List String),
      l.foldl (assetStep porto last) (some (false, parts)) = none ∨
      ∃ parts', l.foldl (assetStep porto last) (some (false, parts)) = some (false, parts') := by
  intro l
  induction l with
  | nil => intro parts; exact Or.inr ⟨parts, rfl⟩
  | cons i t ih =>
    intro parts
    rw [List.foldl_cons]
    cases hc : portoMapGet porto i with
    | none =>
      left
      simp only [assetStep, hc]
      exact foldl_assetStep_none porto last t
    | some a =>
      by_cases hz : a.invested = 0
      · left
        simp only [assetStep, hc, if_pos hz]
        exact foldl_assetStep_none porto last t
      · have hsend := h i a hc
        simp only [assetStep, hc, if_neg hz, hsend, bne_self_eq_false, Bool.false_or]
        exact ih _

/-- Once `should_send` is true it stays true for the rest of the loop. -/
theorem foldl_assetStep_send_stays_true (porto last : List Asset) :
    ∀ (l : List Nat) (parts : List String) (r : Bool × List String),
      l.foldl (assetStep porto last) (some (true, parts)) = some r → r.1 = true := by
  intro l
  induction l with
  | nil =>
    intro parts r h
    rw [List.foldl_nil] at h
    cases h
    rfl
  | cons i t ih =>
    intro parts r h
    rw [List.foldl_cons] at h
    cases hc : portoMapGet porto i with
    | none =>
      rw [show assetStep porto last (some (true, parts)) i = none by
            simp only [assetStep, hc],
          foldl_assetStep_none] at h
      cases h
    | some a =>
      by_cases hz : a.invested = 0
      · rw [show assetStep porto last (some (true, parts)) i = none by
              simp only [assetStep, hc, if_pos hz],
            foldl_assetStep_none] at h
        cases h
      · rw [show assetStep porto last (some (true, parts)) i =
              some (true, parts ++ [formatMessage a.name
                (changeRatioQ (portoMapGet last i) a) a.marketvalue
                (a.marketvalue - a.invested)]) by
              simp only [assetStep, hc, if_neg hz, Bool.true_or]] at h
        exact ih _ _ h

/-- An id on which the step function aborts (for any accumulator) makes the
whole fold abort whenever that id occurs in the list. -/
theorem foldl_assetStep_kills (porto last : List Asset) (i : Nat)
    (hkill : ∀ acc, assetStep porto last acc i = none) :
    ∀ (l : List Nat), i ∈ l → ∀ acc,
      l.foldl (assetStep porto last) acc = none := by
  intro l
  induction l with
  | nil => intro h; cases h
  | cons j t ih =>
    intro hmem acc
    rw [List.foldl_cons]
    rcases List.mem_cons.mp hmem with hij | hit
    · rw [← hij, hkill acc]
      exact foldl_assetStep_none porto last t
    · exact ih hit _

/-- A member's id occurs in the emission order. -/
theorem mem_messageIds {porto : List Asset} {a : Asset} (ha : a ∈ porto) :
    a.id ∈ messageIds porto := by
  unfold messageIds
  exact (List.perm_insertionSort _ _).mem_iff.mpr
    (List.mem_dedup.mpr (List.mem_map_of_mem Asset.id ha))

/-- `int(0) = 0`. -/
theorem pyInt_zero : pyInt 0 = 0 := by with_unfolding_all decide

/-! ## Claim theorems: notify job (C3, C5, C6, C8, C9) -/

/-- C3: when every asset in the current snapshot has the same
integer-truncated market value as its id's entry in the last stored snapshot
(a missing id counting as 0), the run sends no notification and leaves the
rolling store untouched (and if it aborts with an exception instead, it has
produced no effect either). -/
theorem noop_run_leaves_history_unchanged (st : RollingState) (porto : List Asset)
    (ts : Nat)
    (h : ∀ a ∈ porto, pyInt a.marketvalue =
      pyInt (((portoMapGet (rollingGetLast st) a.id).map Asset.marketvalue).getD 0)) :
    (runJob st porto ts).elim True (fun r => r.1 = [] ∧ r.2 = st) := by
  have h' : ∀ i a, portoMapGet porto i = some a →
      pyInt a.marketvalue =
        pyInt (((portoMapGet (rollingGetLast st) i).map Asset.marketvalue).getD 0) := by
    intro i a hia
    obtain ⟨hmem, hid⟩ := portoMapGet_mem hia
    rw [← hid]
    exact h a hmem
  rcases foldl_assetStep_send_stays_false porto (rollingGetLast st) h'
      (messageIds porto) [] with hnone | ⟨parts, hsome⟩
  · unfold runJob constructMessage
    rw [hnone]
    exact trivial
  · unfold runJob constructMessage
    rw [hsome]
    simp

/-- Witness for `noop_run_leaves_history_unchanged`: same market value 10,
`invested` changed from 5 to 7. -/
theorem noop_run_leaves_history_unchanged_witness :
    (∀ a ∈ [(⟨1, "A", 7, 10⟩ : Asset)], pyInt a.marketvalue =
      pyInt (((portoMapGet (rollingGetLast ⟨[], [⟨0, [⟨1, "A", 5, 10⟩]⟩]⟩) a.id).map
        Asset.marketvalue).getD 0))
    ∧ (runJob ⟨[], [⟨0, [⟨1, "A", 5, 10⟩]⟩]⟩ [⟨1, "A", 7, 10⟩] 1).elim True
        (fun r => r.1 = [] ∧ r.2 = ⟨[], [⟨0, [⟨1, "A", 5, 10⟩]⟩]⟩) :=
  ⟨by with_unfolding_all decide,
    noop_run_leaves_history_unchanged ⟨[], [⟨0, [⟨1, "A", 5, 10⟩]⟩]⟩ [⟨1, "A", 7, 10⟩] 1
      (by with_unfolding_all decide)⟩

/-- C5: a current snapshot holding an asset with `invested = 0` makes the
per-asset division raise `ZeroDivisionError`, aborting the run before any
notification is sent or history entry recorded (`runJob` returns `none`,
which by construction carries no effect). -/
theorem zero_invested_aborts_run (st : RollingState) (porto : List Asset) (ts : Nat)
    (a : Asset) (hn : (porto.map Asset.id).Nodup) (ha : a ∈ porto)
    (hz : a.invested = 0) :
    runJob st porto ts = none := by
  have hget := portoMapGet_of_nodup hn ha
  have hkill : ∀ acc, assetStep porto (rollingGetLast st) acc a.id = none := by
    intro acc
    cases acc with
    | none => rfl
    | some p =>
      obtain ⟨s, parts⟩ := p
      simp [assetStep, hget, hz]
  unfold runJob constructMessage
  rw [foldl_assetStep_kills porto (rollingGetLast st) a.id hkill (messageIds porto)
    (mem_messageIds ha) (some (false, []))]
  rfl

/-- Witness for `zero_invested_aborts_run`. -/
theorem zero_invested_aborts_run_witness :
    ([(⟨1, "A", 0, 5⟩ : Asset)].map Asset.id).Nodup
    ∧ (⟨1, "A", 0, 5⟩ : Asset) ∈ [(⟨1, "A", 0, 5⟩ : Asset)]
    ∧ (⟨1, "A", 0, 5⟩ : Asset).invested = 0
    ∧ runJob freshRolling [⟨1, "A", 0, 5⟩] 0 = none :=
  ⟨by decide, by with_unfolding_all decide, by with_unfolding_all decide,
    zero_invested_aborts_run freshRolling [⟨1, "A", 0, 5⟩] 0 ⟨1, "A", 0, 5⟩
      (by decide) (by with_unfolding_all decide) (by with_unfolding_all decide)⟩

/-- C6, counterexample: the claim says a brand-new holding "triggers the
should-notify decision whenever its current market value is non-zero".  A new
holding with market value 1/2 (non-zero) compares as `int(0.5) = 0 = int(0)`
against its zero baseline, so `should_send` stays false and no notification
results. -/
theorem fractional_new_holding_no_notification :
    (⟨1, "A", 1, 1/2⟩ : Asset).marketvalue ≠ 0
    ∧ portoMapGet [] (⟨1, "A", 1, 1/2⟩ : Asset).id = none
    ∧ constructMessage [⟨1, "A", 1, 1/2⟩] [] = some (false, "📉 50.0 | *A*\n0 [0]\n") := by
  refine ⟨by with_unfolding_all decide, rfl, ?_⟩
  have h1 : messageIds [(⟨1, "A", 1, 1/2⟩ : Asset)] = [1] := by with_unfolding_all decide
  have hfm : formatMessage "A" (changeRatioQ none ⟨1, "A", 1, 1/2⟩) (1/2) (1/2 - 1)
      = "📉 50.0 | *A*\n0 [0]\n" := by with_unfolding_all decide
  have h2 : assetStep [(⟨1, "A", 1, 1/2⟩ : Asset)] [] (some (false, [])) 1
      = some (false, ["📉 50.0 | *A*\n0 [0]\n"]) := by
    simp only [assetStep,
      show portoMapGet [(⟨1, "A", 1, 1/2⟩ : Asset)] 1 = some ⟨1, "A", 1, 1/2⟩ from by
        with_unfolding_all decide,
      show portoMapGet ([] : List Asset) 1 = none from rfl,
      Option.map_none', Option.getD_none,
      show ¬((1 : ℚ) = 0) from by with_unfolding_all decide, if_false,
      show (pyInt (1/2 : ℚ) != pyInt (0 : ℚ)) = false from by with_unfolding_all decide,
      Bool.or_false, hfm, List.nil_append]
  unfold constructMessage
  rw [h1, List.foldl_cons, h2, List.foldl_nil]
  rfl

/-- C6, amended: an asset present in the current snapshot but absent from the
last snapshot is compared against a zero baseline, so its change ratio is
`currentProfit / currentInvested`; and whenever its INTEGER-TRUNCATED current
market value is non-zero, any completed run has `should_send = true`. -/
theorem new_holding_zero_baseline (porto last : List Asset) (a : Asset)
    (hn : (porto.map Asset.id).Nodup) (ha : a ∈ porto)
    (habsent : portoMapGet last a.id = none)
    (hnz : pyInt a.marketvalue ≠ 0) :
    changeRatioQ none a = (a.marketvalue - a.invested) / a.invested
    ∧ (constructMessage porto last).elim True (fun r => r.1 = true) := by
  constructor
  · unfold changeRatioQ
    simp
  · obtain ⟨l₁, l₂, hsplit⟩ := List.append_of_mem (mem_messageIds ha)
    unfold constructMessage
    rw [hsplit, List.foldl_append, List.foldl_cons]
    cases h1 : l₁.foldl (assetStep porto last) (some (false, [])) with
    | none =>
      rw [assetStep_none, foldl_assetStep_none]
      exact trivial
    | some p =>
      obtain ⟨s, parts⟩ := p
      have hget := portoMapGet_of_nodup hn ha
      by_cases hz : a.invested = 0
      · rw [show assetStep porto last (some (s, parts)) a.id = none by
            simp only [assetStep, hget, if_pos hz], foldl_assetStep_none]
        exact trivial
      · have hbne : (pyInt a.marketvalue !=
            pyInt (((portoMapGet last a.id).map Asset.marketvalue).getD 0)) = true := by
          rw [habsent]
          simpa [pyInt_zero] using bne_iff_ne.mpr hnz
        rw [show assetStep porto last (some (s, parts)) a.id =
              some (true, parts ++ [formatMessage a.name
                (changeRatioQ (portoMapGet last a.id) a) a.marketvalue
                (a.marketvalue - a.invested)]) by
              simp only [assetStep, hget, if_neg hz, hbne, Bool.or_true]]
        cases h2 : l₂.foldl (assetStep porto last)
            (some (true, parts ++ [formatMessage a.name
              (changeRatioQ (portoMapGet last a.id) a) a.marketvalue
              (a.marketvalue - a.invested)])) with
        | none => exact trivial
        | some r =>
          simpa using foldl_assetStep_send_stays_true porto last l₂ _ r h2

/-- Witness for `new_holding_zero_baseline`. -/
theorem new_holding_zero_baseline_witness :
    ([(⟨1, "A", 1, 5⟩ : Asset)].map Asset.id).Nodup
    ∧ (⟨1, "A", 1, 5⟩ : Asset) ∈ [(⟨1, "A", 1, 5⟩ : Asset)]
    ∧ portoMapGet [] (⟨1, "A", 1, 5⟩ : Asset).id = none
    ∧ pyInt (⟨1, "A", 1, 5⟩ : Asset).marketvalue ≠ 0
    ∧ (changeRatioQ none ⟨1, "A", 1, 5⟩ =
        ((⟨1, "A", 1, 5⟩ : Asset).marketvalue - (⟨1, "A", 1, 5⟩ : Asset).invested) /
          (⟨1, "A", 1, 5⟩ : Asset).invested
      ∧ (constructMessage [⟨1, "A", 1, 5⟩] []).elim True (fun r => r.1 = true)) :=
  ⟨by decide, by with_unfolding_all decide, rfl, by with_unfolding_all decide,
    new_holding_zero_baseline [⟨1, "A", 1, 5⟩] [] ⟨1, "A", 1, 5⟩
      (by decide) (by with_unfolding_all decide) rfl (by with_unfolding_all decide)⟩

/-- C8: with unique ids, the constructed message and should-notify decision
are invariant under any permutation of the current and last asset lists, and
the emission order is the ascending sorted order of asset ids. -/
theorem constructMessage_order_invariant (porto porto' last last' : List Asset)
    (hp : List.Perm porto porto') (hl : List.Perm last last')
    (hnp : (porto.map Asset.id).Nodup) (hnl : (last.map Asset.id).Nodup) :
    constructMessage porto last = constructMessage porto' last'
    ∧ List.Sorted (· ≤ ·) (messageIds porto) := by
  constructor
  · unfold constructMessage
    rw [messageIds_perm hp hnp]
    have hfold : (messageIds porto').foldl (assetStep porto last) (some (false, [])) =
        (messageIds porto').foldl (assetStep porto' last') (some (false, [])) := by
      apply foldl_congr_mem
      intro i _ acc
      cases acc with
      | none => rfl
      | some p =>
        simp only [assetStep, portoMapGet_perm hp hnp i, portoMapGet_perm hl hnl i]
    rw [hfold]
  · exact List.sorted_insertionSort _ _

/-- Witness for `constructMessage_order_invariant` on a two-asset swap. -/
theorem constructMessage_order_invariant_witness :
    List.Perm [(⟨1, "A", 1, 2⟩ : Asset), ⟨2, "B", 3, 4⟩]
      [(⟨2, "B", 3, 4⟩ : Asset), ⟨1, "A", 1, 2⟩]
    ∧ ([(⟨1, "A", 1, 2⟩ : Asset), ⟨2, "B", 3, 4⟩].map Asset.id).Nodup
    ∧ (constructMessage [⟨1, "A", 1, 2⟩, ⟨2, "B", 3, 4⟩] [] =
        constructMessage [⟨2, "B", 3, 4⟩, ⟨1, "A", 1, 2⟩] []
      ∧ List.Sorted (· ≤ ·) (messageIds [⟨1, "A", 1, 2⟩, ⟨2, "B", 3, 4⟩])) :=
  ⟨List.Perm.swap _ _ _, by decide,
    constructMessage_order_invariant [⟨1, "A", 1, 2⟩, ⟨2, "B", 3, 4⟩]
      [⟨2, "B", 3, 4⟩, ⟨1, "A", 1, 2⟩] [] [] (List.Perm.swap _ _ _) (List.Perm.refl [])
      (by decide) (by decide)⟩

/-- C9: the end-to-end scenario — last `[{id:1, name:"Fund A", invested:1000,
marketValue:1050}]`, current `[... marketValue:1100}]` — notifies with the
up-glyph line `📈 5.0 | *Fund A*\n1,100 [100]\n`; the change ratio there is
`(100-50)/1000 = 5%`; and the glyph honours the `1e-9` deadband (a change
ratio of `1e-10` renders flat, a negative one below the deadband renders
down, each with the absolute percentage to one decimal and the
thousands-grouped rounded value and profit). -/
theorem formatting_end_to_end :
    constructMessage [⟨1, "Fund A", 1000, 1100⟩] [⟨1, "Fund A", 1000, 1050⟩]
      = some (true, emojiUp ++ " " ++ "5.0 | *Fund A*\n1,100 [100]\n")
    ∧ changeRatioQ (some ⟨1, "Fund A", 1000, 1050⟩) ⟨1, "Fund A", 1000, 1100⟩ = 5 / 100
    ∧ formatMessage "X" (1 / 10000000000) 0 0 = emojiFlat ++ " 0.0 | *X*\n0 [0]\n"
    ∧ formatMessage "X" (-(1 / 10)) 0 0 = emojiDown ++ " 10.0 | *X*\n0 [0]\n" := by
  refine ⟨?_, by with_unfolding_all decide, by with_unfolding_all decide,
    by with_unfolding_all decide⟩
  have h1 : messageIds [(⟨1, "Fund A", 1000, 1100⟩ : Asset)] = [1] := by
    with_unfolding_all decide
  have hfm : formatMessage "Fund A"
      (changeRatioQ (some ⟨1, "Fund A", 1000, 1050⟩) ⟨1, "Fund A", 1000, 1100⟩)
      1100 (1100 - 1000) = "📈 5.0 | *Fund A*\n1,100 [100]\n" := by
    with_unfolding_all decide
  have h2 : assetStep [(⟨1, "Fund A", 1000, 1100⟩ : Asset)] [⟨1, "Fund A", 1000, 1050⟩]
      (some (false, [])) 1 = some (true, ["📈 5.0 | *Fund A*\n1,100 [100]\n"]) := by
    simp only [assetStep,
      show portoMapGet [(⟨1, "Fund A", 1000, 1100⟩ : Asset)] 1
          = some ⟨1, "Fund A", 1000, 1100⟩ from by with_unfolding_all decide,
      show portoMapGet [(⟨1, "Fund A", 1000, 1050⟩ : Asset)] 1
          = some ⟨1, "Fund A", 1000, 1050⟩ from by with_unfolding_all decide,
      Option.map_some', Option.getD_some,
      show ¬((1000 : ℚ) = 0) from by with_unfolding_all decide, if_false,
      show (pyInt (1100 : ℚ) != pyInt (1050 : ℚ)) = true from by with_unfolding_all decide,
      Bool.or_true, hfm, List.nil_append]
  unfold constructMessage
  rw [h1, List.foldl_cons, h2, List.foldl_nil]
  rfl

/-- C7: a missing backing file makes `JSONFileStorage.load` raise
`StoreNotInitializedError`, which `PortofolioHistoryStore.init` catches,
yielding the empty history (first-run semantics); and `get_last` on an empty
history returns the empty sequence instead of raising `IndexError`. -/
theorem store_first_run_and_empty_last :
    jsonLoad none = Except.error .storeNotInitialized
    ∧ storeInit none = []
    ∧ storeGetLast [] = [] :=
  ⟨rfl, rfl, rfl⟩
